import Mathlib

/-!
Verification of the trend-classification / strategy-optimization engine of the
`stock-web` repository (`web/services/analysis_service.py`, `web/config.py`).

Shallow embedding conventions:
* Python floats are modelled as exact rationals (`ℚ`) in the computational
  paths (backtester, grid optimizer, moving averages), and as reals (`ℝ`)
  where the code takes logarithms/exponentials (the regression gates of the
  trend classifier).
* `numpy` arrays become `List`s; a `pandas` dataframe row becomes a structure.
* Python's `round(x, d)` (round-half-to-even on the decimal value) is
  modelled exactly by `pyRound`.
* Fallible paths returning `None` become `Option`.
-/

/-! ## Python-style rounding (`round(x, d)`, banker's rounding) -/

/-- Round a rational to the nearest integer, ties to even
(the semantics of Python's builtin `round`). -/
def roundHalfEven (x : ℚ) : ℤ :=
  let n := ⌊x⌋
  let f := x - n
  if f < 1/2 then n
  else if 1/2 < f then n + 1
  else if n % 2 = 0 then n else n + 1

/-- Python's `round(x, d)`: round to `d` decimal places, ties to even. -/
def pyRound (x : ℚ) (d : ℕ) : ℚ :=
  (roundHalfEven (x * 10 ^ d) : ℚ) / 10 ^ d

/-! ## Strategy constants (`web/config.py`, `StrategyConfig`) and the RSI
constants at the top of `analysis_service.py` -/

namespace StrategyConfig

def MIN_R_SQUARED : ℚ := 8/10
def MIN_ANNUAL_RETURN : ℚ := 10
def MAX_ANNUAL_RETURN : ℚ := 150
def MIN_TURNOVER : ℚ := 50000000
def MIN_MARKET_CAP : ℚ := 10000000000
def TREND_MA_SHORT : ℕ := 50
def TREND_MA_LONG : ℕ := 250
def TREND_BREAK_CHECK_DAYS : ℕ := 270
def MIN_REGRESSION_SAMPLES : ℕ := 20
def STRAT_COMMISSION : ℚ := 2/1000
def STRAT_INITIAL_CAPITAL : ℚ := 100000
def MA_SHORT_WINDOW : ℕ := 5
def MA_LONG_WINDOW : ℕ := 60
def MIN_STRAT_TRADES : ℕ := 3
def STRAT_BUY_RANGE : ℚ × ℚ × ℚ := (-1/10, 101/1000, 2/1000)
def STRAT_SELL_RANGE : ℚ × ℚ × ℚ := (0, 151/1000, 2/1000)

end StrategyConfig

/-- `RSI_PERIOD = 14` (analysis_service.py line 18). -/
def RSI_PERIOD : ℕ := 14
/-- `RSI_BUY_THRESHOLD = 40.0` (line 19). -/
def RSI_BUY_THRESHOLD : ℚ := 40
/-- `RSI_SELL_THRESHOLD = 75.0` (line 20). -/
def RSI_SELL_THRESHOLD : ℚ := 75
/-- `RSI_SELL_BIAS_FACTOR = 0.8` (line 21). -/
def RSI_SELL_BIAS_FACTOR : ℚ := 8/10

/-! ## The numba backtest kernel (`backtest_numba`, lines 24–83)

One element of the four parallel input arrays is bundled into a `BTDay`. -/

/-- One bar of the backtest input: `close_arr[i]`, `bias5_arr[i]`,
`bias60_arr[i]`, `rsi_arr[i]`. -/
structure BTDay where
  close : ℚ
  bias5 : ℚ
  bias60 : ℚ
  rsi : ℚ
  deriving DecidableEq, Repr

/-- The loop state of `backtest_numba`: `capital`, `hold_shares`,
`cost_price`, `in_market`, `trade_count`, `win_count`. -/
structure BTState where
  capital : ℚ
  holdShares : ℚ
  costPrice : ℚ
  inMarket : Bool
  tradeCount : ℕ
  winCount : ℕ
  deriving DecidableEq, Repr

/-- The backtester's `FLAT → LONG` entry test (line 72):
`b60 <= buy_bias_threshold and current_rsi < RSI_BUY_THRESHOLD`. -/
def backtestBuyCond (b60 rsi buyBiasThreshold : ℚ) : Prop :=
  b60 ≤ buyBiasThreshold ∧ rsi < RSI_BUY_THRESHOLD

instance (b60 rsi th : ℚ) : Decidable (backtestBuyCond b60 rsi th) :=
  inferInstanceAs (Decidable (_ ∧ _))

/-- The backtester's `LONG → FLAT` exit test (lines 57–60):
`condition_normal or condition_early`. -/
def backtestSellCond (b5 rsi sellBiasThreshold : ℚ) : Prop :=
  (sellBiasThreshold ≤ b5) ∨
    (sellBiasThreshold * RSI_SELL_BIAS_FACTOR ≤ b5 ∧ RSI_SELL_THRESHOLD < rsi)

instance (b5 rsi th : ℚ) : Decidable (backtestSellCond b5 rsi th) :=
  inferInstanceAs (Decidable (_ ∨ _))

/-- One iteration of the `for i in range(n)` loop of `backtest_numba`. -/
def btStep (buyBiasThreshold sellBiasThreshold commission : ℚ)
    (st : BTState) (d : BTDay) : BTState :=
  if d.close ≤ 1/10000 then st
  else if st.inMarket then
    if backtestSellCond d.bias5 d.rsi sellBiasThreshold then
      let revenue := st.holdShares * d.close * (1 - commission)
      let currentProfit := revenue - st.holdShares * st.costPrice
      { capital := revenue
        holdShares := 0
        costPrice := st.costPrice
        inMarket := false
        tradeCount := st.tradeCount + 1
        winCount := st.winCount + (if 0 < currentProfit then 1 else 0) }
    else st
  else
    if backtestBuyCond d.bias60 d.rsi buyBiasThreshold then
      let costAfterFee := d.close * (1 + commission)
      { capital := st.capital
        holdShares := st.capital / costAfterFee
        costPrice := d.close
        inMarket := true
        tradeCount := st.tradeCount
        winCount := st.winCount }
    else st

/-- The initial loop state of `backtest_numba` (lines 36–42). -/
def btInit (initialCapital : ℚ) : BTState :=
  { capital := initialCapital, holdShares := 0, costPrice := 0
    inMarket := false, tradeCount := 0, winCount := 0 }

/-- The loop state after the full pass over the input arrays. -/
def btFinal (days : List BTDay)
    (buyBiasThreshold sellBiasThreshold commission initialCapital : ℚ) : BTState :=
  days.foldl (btStep buyBiasThreshold sellBiasThreshold commission)
    (btInit initialCapital)

/-- `close_arr[-1]`, as used by the end-of-series mark-to-market
(line 80); only reached when a position is open, hence on a nonempty array. -/
def btLastClose (days : List BTDay) : ℚ :=
  ((days.getLast?).map BTDay.close).getD 0

/-- `backtest_numba` (lines 24–83): returns
`(return_pct, trade_count, win_count)`. -/
def backtest_numba (days : List BTDay)
    (buyBiasThreshold sellBiasThreshold commission initialCapital : ℚ) :
    ℚ × ℕ × ℕ :=
  let fin := btFinal days buyBiasThreshold sellBiasThreshold commission initialCapital
  let finalValue :=
    if fin.inMarket then fin.holdShares * btLastClose days * (1 - commission)
    else fin.capital
  ((finalValue - initialCapital) / initialCapital * 100, fin.tradeCount, fin.winCount)

example :
    backtest_numba [] 0 0 StrategyConfig.STRAT_COMMISSION
      StrategyConfig.STRAT_INITIAL_CAPITAL = (0, 0, 0) := by
  norm_num [backtest_numba, btFinal, btInit, btLastClose, Prod.ext_iff,
    StrategyConfig.STRAT_COMMISSION, StrategyConfig.STRAT_INITIAL_CAPITAL]

/-! ## The grid optimizer (`_worker_optimize_stock`, lines 155–189)

The pandas preprocessing (lines 100–153) turns a stock's history into the
four parallel arrays fed to `backtest_numba` together with the
buy-and-hold `benchmark_return`; the grid sweep itself (lines 155–189) is
modelled here as a function of those arrays and that benchmark. -/

/-- `np.arange(start, stop, step)` for a positive step: the values
`start + i*step` for `0 ≤ i < ⌈(stop - start)/step⌉`. -/
def npArange (start stop step : ℚ) : List ℚ :=
  (List.range (⌈(stop - start) / step⌉).toNat).map fun i : ℕ => start + (i : ℚ) * step

/-- `buy_range = np.arange(*StrategyConfig.STRAT_BUY_RANGE)` (line 162). -/
def buyRange : List ℚ :=
  npArange StrategyConfig.STRAT_BUY_RANGE.1 StrategyConfig.STRAT_BUY_RANGE.2.1
    StrategyConfig.STRAT_BUY_RANGE.2.2

/-- `sell_range = np.arange(*StrategyConfig.STRAT_SELL_RANGE)` (line 163). -/
def sellRange : List ℚ :=
  npArange StrategyConfig.STRAT_SELL_RANGE.1 StrategyConfig.STRAT_SELL_RANGE.2.1
    StrategyConfig.STRAT_SELL_RANGE.2.2

/-- The (buy, sell) cells in the order the nested `for b … for s …` loops
visit them: buy ascending, and sell ascending within each buy. -/
def gridCells : List (ℚ × ℚ) :=
  buyRange.flatMap fun b => sellRange.map fun s => (b, s)

/-- The `best_result` record of `_worker_optimize_stock` (lines 155–160,
179–186): `total_return`, `benchmark_return`, the `params` dict and the
`metrics` dict, flattened. -/
structure BestResult where
  total_return : ℚ
  benchmark_return : ℚ
  buy_ma60_bias : ℚ
  sell_ma5_bias : ℚ
  win_rate : ℚ
  trades : ℕ
  deriving DecidableEq, Repr

/-- The initial `best_result` (lines 155–160): sentinel return `-999`,
zeroed params and metrics, the precomputed benchmark return. -/
def initBestResult (benchmarkReturn : ℚ) : BestResult :=
  { total_return := -999, benchmark_return := benchmarkReturn
    buy_ma60_bias := 0, sell_ma5_bias := 0, win_rate := 0, trades := 0 }

/-- The body of the inner grid loop (lines 165–186): run the backtest on
one `(b, s)` cell, skip it when `trades < MIN_STRAT_TRADES`, and replace
the running best when `ret > best_result["total_return"]` (note: the raw
`ret` is compared against the previously *rounded* stored value). -/
def gridStep (days : List BTDay) (best : BestResult) (cell : ℚ × ℚ) : BestResult :=
  if (backtest_numba days cell.1 cell.2 StrategyConfig.STRAT_COMMISSION
      StrategyConfig.STRAT_INITIAL_CAPITAL).2.1 < StrategyConfig.MIN_STRAT_TRADES
  then best
  else if best.total_return < (backtest_numba days cell.1 cell.2
      StrategyConfig.STRAT_COMMISSION StrategyConfig.STRAT_INITIAL_CAPITAL).1 then
    { total_return := pyRound (backtest_numba days cell.1 cell.2
        StrategyConfig.STRAT_COMMISSION StrategyConfig.STRAT_INITIAL_CAPITAL).1 2
      benchmark_return := best.benchmark_return
      buy_ma60_bias := pyRound (cell.1 * 100) 1
      sell_ma5_bias := pyRound (cell.2 * 100) 1
      win_rate := pyRound
        (if 0 < (backtest_numba days cell.1 cell.2 StrategyConfig.STRAT_COMMISSION
            StrategyConfig.STRAT_INITIAL_CAPITAL).2.1 then
          ((backtest_numba days cell.1 cell.2 StrategyConfig.STRAT_COMMISSION
              StrategyConfig.STRAT_INITIAL_CAPITAL).2.2 : ℚ) /
            ((backtest_numba days cell.1 cell.2 StrategyConfig.STRAT_COMMISSION
              StrategyConfig.STRAT_INITIAL_CAPITAL).2.1 : ℚ) * 100
         else 0) 1
      trades := (backtest_numba days cell.1 cell.2 StrategyConfig.STRAT_COMMISSION
        StrategyConfig.STRAT_INITIAL_CAPITAL).2.1 }
  else best

/-- `_worker_optimize_stock`'s grid sweep and final sentinel check
(lines 155–189): `None` when the best return is still `-999`, otherwise
the best record found. -/
def workerOptimizeGrid (days : List BTDay) (benchmarkReturn : ℚ) :
    Option BestResult :=
  let best := gridCells.foldl (gridStep days) (initBestResult benchmarkReturn)
  if best.total_return = -999 then none else some best

/-! ## The live signal evaluator's trigger predicates
(`check_signals_and_notify`, lines 351–381)

`check_signals_and_notify` works in percent units (`bias_60_pct`,
`buy_threshold_pct`, …); the predicates below take whatever values the
caller supplies, exactly as the comparisons appear in the code. -/

/-- The live buy trigger (line 355):
`bias_60_pct <= buy_threshold_pct and rsi_curr < RSI_BUY_THRESHOLD`. -/
def signalBuyTrigger (bias60 rsi buyThreshold : ℚ) : Prop :=
  bias60 ≤ buyThreshold ∧ rsi < RSI_BUY_THRESHOLD

/-- The live sell trigger (lines 375–378):
`cond_sell_normal or cond_sell_early`, where
`cond_sell_normal = bias_5_pct >= sell_threshold_pct` and
`cond_sell_early = bias_5_pct >= sell_threshold_pct * RSI_SELL_BIAS_FACTOR
and rsi_curr > RSI_SELL_THRESHOLD`. -/
def signalSellTrigger (bias5 rsi sellThreshold : ℚ) : Prop :=
  (sellThreshold ≤ bias5) ∨
    (sellThreshold * RSI_SELL_BIAS_FACTOR ≤ bias5 ∧ RSI_SELL_THRESHOLD < rsi)

/-! ## Backtester theorems (claims C4, C8, C9) -/

lemma btStep_nonneg (b s c : ℚ) (hc0 : 0 ≤ c) (hc1 : c ≤ 1)
    (st : BTState) (d : BTDay)
    (h1 : 0 ≤ st.capital) (h2 : 0 ≤ st.holdShares) :
    0 ≤ (btStep b s c st d).capital ∧ 0 ≤ (btStep b s c st d).holdShares := by
  unfold btStep
  split_ifs with hclose hmkt hsell hbuy
  · exact ⟨h1, h2⟩
  · refine ⟨?_, le_refl 0⟩
    have hp : (0 : ℚ) < d.close := by
      push_neg at hclose
      linarith
    exact mul_nonneg (mul_nonneg h2 hp.le) (by linarith)
  · exact ⟨h1, h2⟩
  · refine ⟨h1, ?_⟩
    have hp : (0 : ℚ) < d.close := by
      push_neg at hclose
      linarith
    exact div_nonneg h1 (mul_nonneg hp.le (by linarith))
  · exact ⟨h1, h2⟩

lemma btFoldl_nonneg (b s c : ℚ) (hc0 : 0 ≤ c) (hc1 : c ≤ 1)
    (days : List BTDay) (st : BTState)
    (h1 : 0 ≤ st.capital) (h2 : 0 ≤ st.holdShares) :
    0 ≤ (days.foldl (btStep b s c) st).capital ∧
      0 ≤ (days.foldl (btStep b s c) st).holdShares := by
  induction days generalizing st with
  | nil => exact ⟨h1, h2⟩
  | cons d t ih =>
    rw [List.foldl_cons]
    have hd := btStep_nonneg b s c hc0 hc1 st d h1 h2
    exact ih _ hd.1 hd.2

/-- Claim C9 (amended): for any input arrays and thresholds, with a
commission in `[0, 1]` and positive initial capital, the backtester's
capital and held shares stay non-negative; and provided the final array
element's close is non-negative (which the optimizer's `close > 0.0001`
input filter guarantees), the returned total-return percentage is
`≥ -100` and in particular never the `-999` sentinel. -/
theorem backtest_capital_shares_nonneg_return_bound
    (days : List BTDay) (b s c init : ℚ)
    (hc0 : 0 ≤ c) (hc1 : c ≤ 1) (hinit : 0 < init)
    (hlast : 0 ≤ btLastClose days) :
    (0 ≤ (btFinal days b s c init).capital ∧
      0 ≤ (btFinal days b s c init).holdShares) ∧
    -100 ≤ (backtest_numba days b s c init).1 ∧
    (backtest_numba days b s c init).1 ≠ -999 := by
  have hfin := btFoldl_nonneg b s c hc0 hc1 days (btInit init)
    (by simpa [btInit] using hinit.le) (by simp [btInit])
  refine ⟨hfin, ?_⟩
  have hfv : 0 ≤ (if (btFinal days b s c init).inMarket then
      (btFinal days b s c init).holdShares * btLastClose days * (1 - c)
    else (btFinal days b s c init).capital) := by
    split_ifs
    · exact mul_nonneg (mul_nonneg hfin.2 hlast) (by linarith)
    · exact hfin.1
  have hret : (backtest_numba days b s c init).1 =
      ((if (btFinal days b s c init).inMarket then
          (btFinal days b s c init).holdShares * btLastClose days * (1 - c)
        else (btFinal days b s c init).capital) - init) / init * 100 := rfl
  set fv := (if (btFinal days b s c init).inMarket then
      (btFinal days b s c init).holdShares * btLastClose days * (1 - c)
    else (btFinal days b s c init).capital) with hfveq
  have hsum : (fv - init) / init * 100 + 100 = fv / init * 100 := by
    field_simp
    ring
  have hdiv : 0 ≤ fv / init * 100 :=
    mul_nonneg (div_nonneg hfv hinit.le) (by norm_num)
  constructor
  · rw [hret]; linarith
  · rw [hret]; intro habs; linarith

/-- A two-day input whose second (and last) close is negative: the loop
skips that bar but the end-of-series mark-to-market still prices the open
position at `close_arr[-1]`, driving the return far below `-100`.
Day 1 triggers the entry (`bias60 = -1 ≤ 0`, `rsi = 0 < 40`). -/
def c9Days : List BTDay :=
  [{ close := 1, bias5 := 0, bias60 := -1, rsi := 0 },
   { close := -501, bias5 := 0, bias60 := 0, rsi := 50 }]

/-- Counterexample to claim C9 as stated: on `c9Days` (with the default
commission 0.002 and capital 100000) the backtester returns a total
return of `-50000`, strictly below `-100`. -/
theorem backtest_return_below_neg100_cex :
    (backtest_numba c9Days 0 0 (1/500) 100000).1 = -50000 ∧
    (backtest_numba c9Days 0 0 (1/500) 100000).1 < -100 := by
  have h : (backtest_numba c9Days 0 0 (1/500) 100000).1 = -50000 := by
    norm_num [backtest_numba, btFinal, btInit, btStep, btLastClose, c9Days,
      backtestBuyCond, backtestSellCond, RSI_BUY_THRESHOLD,
      RSI_SELL_THRESHOLD, RSI_SELL_BIAS_FACTOR]
  exact ⟨h, by rw [h]; norm_num⟩

/-- A one-day input on which no trade triggers (`rsi = 50` blocks the
entry); used to instantiate the amended C9 theorem. -/
def c9wDays : List BTDay := [{ close := 1, bias5 := 0, bias60 := 0, rsi := 50 }]

/-- Witness for the amended C9 theorem at a concrete input. -/
theorem backtest_capital_shares_nonneg_return_bound_witness :
    0 ≤ btLastClose c9wDays ∧
      -100 ≤ (backtest_numba c9wDays 0 0 (1/500) 100000).1 := by
  have hlast : 0 ≤ btLastClose c9wDays := by
    norm_num [btLastClose, c9wDays]
  exact ⟨hlast,
    (backtest_capital_shares_nonneg_return_bound c9wDays 0 0 (1/500) 100000
      (by norm_num) (by norm_num) (by norm_num) hlast).2.1⟩

/-- Claim C4: `trade_count` increments exactly on a `LONG → FLAT` exit;
`win_count` increments on such an exit iff the exit proceeds
`shares × close × (1 − commission)` strictly exceed the cost basis
`shares × cost_price`; the returned counts are exactly the loop's final
counts (the end-of-series mark-to-market of a still-open position changes
neither), and in that still-open case the returned total return is
computed from the final close. -/
theorem backtest_trade_and_win_counting (b s c : ℚ) :
    (∀ (st : BTState) (d : BTDay),
      (btStep b s c st d).tradeCount =
        st.tradeCount +
          (if st.inMarket = true ∧ (btStep b s c st d).inMarket = false
            then 1 else 0) ∧
      (btStep b s c st d).winCount =
        st.winCount +
          (if st.inMarket = true ∧ (btStep b s c st d).inMarket = false ∧
              st.holdShares * st.costPrice <
                st.holdShares * d.close * (1 - c)
            then 1 else 0)) ∧
    (∀ (days : List BTDay) (init : ℚ),
      (backtest_numba days b s c init).2.1 = (btFinal days b s c init).tradeCount ∧
      (backtest_numba days b s c init).2.2 = (btFinal days b s c init).winCount) ∧
    (∀ (days : List BTDay) (init : ℚ),
      (btFinal days b s c init).inMarket = true →
      (backtest_numba days b s c init).1 =
        ((btFinal days b s c init).holdShares * btLastClose days * (1 - c)
          - init) / init * 100) := by
  refine ⟨?_, fun days init => ⟨rfl, rfl⟩, ?_⟩
  · intro st d
    by_cases hclose : d.close ≤ 1/10000
    · have hstep : btStep b s c st d = st := by
        unfold btStep
        rw [if_pos hclose]
      cases hm : st.inMarket <;> simp [hstep, hm]
    · by_cases hmkt : st.inMarket = true
      · by_cases hsell : backtestSellCond d.bias5 d.rsi s
        · have hstep : btStep b s c st d =
            { capital := st.holdShares * d.close * (1 - c)
              holdShares := 0
              costPrice := st.costPrice
              inMarket := false
              tradeCount := st.tradeCount + 1
              winCount := st.winCount +
                (if 0 < st.holdShares * d.close * (1 - c) -
                    st.holdShares * st.costPrice then 1 else 0) } := by
            unfold btStep
            rw [if_neg hclose, if_pos hmkt, if_pos hsell]
          rw [hstep]
          refine ⟨by simp [hmkt], ?_⟩
          simp only [hmkt, true_and]
          congr 1
          exact if_congr (by simp [sub_pos]) rfl rfl
        · have hstep : btStep b s c st d = st := by
            unfold btStep
            rw [if_neg hclose, if_pos hmkt, if_neg hsell]
          exact ⟨by simp [hstep, hmkt], by simp [hstep, hmkt]⟩
      · have hm : st.inMarket = false := by simpa using hmkt
        by_cases hbuy : backtestBuyCond d.bias60 d.rsi b
        · have hstep : btStep b s c st d =
            { capital := st.capital
              holdShares := st.capital / (d.close * (1 + c))
              costPrice := d.close
              inMarket := true
              tradeCount := st.tradeCount
              winCount := st.winCount } := by
            unfold btStep
            rw [if_neg hclose, if_neg hmkt, if_pos hbuy]
          exact ⟨by simp [hstep, hm], by simp [hstep, hm]⟩
        · have hstep : btStep b s c st d = st := by
            unfold btStep
            rw [if_neg hclose, if_neg hmkt, if_neg hbuy]
          exact ⟨by simp [hstep, hm], by simp [hstep, hm]⟩
  · intro days init h
    show ((if (btFinal days b s c init).inMarket then _ else _) - init) / init * 100 = _
    rw [if_pos h]

/-- A one-day input that opens a position which stays open to the end of
the series; used to instantiate the mark-to-market clause of C4. -/
def c4wDays : List BTDay := [{ close := 1, bias5 := 0, bias60 := -1, rsi := 0 }]

/-- Witness for the C4 theorem: on `c4wDays` the position is still open at
the end, and the theorem's mark-to-market clause applies. -/
theorem backtest_trade_and_win_counting_witness :
    (btFinal c4wDays 0 0 (1/500) 100000).inMarket = true ∧
    (backtest_numba c4wDays 0 0 (1/500) 100000).1 =
      ((btFinal c4wDays 0 0 (1/500) 100000).holdShares * btLastClose c4wDays *
        (1 - 1/500) - 100000) / 100000 * 100 := by
  have hmkt : (btFinal c4wDays 0 0 (1/500) 100000).inMarket = true := by
    norm_num [btFinal, btInit, btStep, c4wDays, backtestBuyCond,
      RSI_BUY_THRESHOLD]
  exact ⟨hmkt,
    (backtest_trade_and_win_counting 0 0 (1/500)).2.2 c4wDays 100000 hmkt⟩

/-- Claim C8: for equal bias, RSI and threshold values, the live signal
evaluator's buy trigger coincides with the backtester's entry condition,
and its sell trigger with the backtester's exit condition. -/
theorem signal_triggers_equiv_backtest_conditions :
    ∀ bias rsi threshold : ℚ,
      (signalBuyTrigger bias rsi threshold ↔
        backtestBuyCond bias rsi threshold) ∧
      (signalSellTrigger bias rsi threshold ↔
        backtestSellCond bias rsi threshold) :=
  fun _ _ _ => ⟨Iff.rfl, Iff.rfl⟩

/-! ## Grid optimizer theorems (claims C1, C5) -/

lemma gridStep_skip (days : List BTDay) (best : BestResult) (cell : ℚ × ℚ)
    (h : (backtest_numba days cell.1 cell.2 StrategyConfig.STRAT_COMMISSION
      StrategyConfig.STRAT_INITIAL_CAPITAL).2.1 < StrategyConfig.MIN_STRAT_TRADES) :
    gridStep days best cell = best := by
  unfold gridStep
  rw [if_pos h]

lemma gridStep_trades_inv (days : List BTDay) (bm : ℚ) (best : BestResult)
    (cell : ℚ × ℚ)
    (h : best = initBestResult bm ∨ StrategyConfig.MIN_STRAT_TRADES ≤ best.trades) :
    gridStep days best cell = initBestResult bm ∨
      StrategyConfig.MIN_STRAT_TRADES ≤ (gridStep days best cell).trades := by
  by_cases h1 : (backtest_numba days cell.1 cell.2 StrategyConfig.STRAT_COMMISSION
      StrategyConfig.STRAT_INITIAL_CAPITAL).2.1 < StrategyConfig.MIN_STRAT_TRADES
  · rw [gridStep_skip days best cell h1]
    exact h
  · unfold gridStep
    rw [if_neg h1]
    by_cases h2 : best.total_return < (backtest_numba days cell.1 cell.2
        StrategyConfig.STRAT_COMMISSION StrategyConfig.STRAT_INITIAL_CAPITAL).1
    · rw [if_pos h2]
      right
      exact le_of_not_lt h1
    · rw [if_neg h2]
      exact h

lemma gridFoldl_trades_inv (days : List BTDay) (bm : ℚ)
    (cells : List (ℚ × ℚ)) (best : BestResult)
    (h : best = initBestResult bm ∨ StrategyConfig.MIN_STRAT_TRADES ≤ best.trades) :
    cells.foldl (gridStep days) best = initBestResult bm ∨
      StrategyConfig.MIN_STRAT_TRADES ≤ (cells.foldl (gridStep days) best).trades := by
  induction cells generalizing best with
  | nil => exact h
  | cons c t ih =>
    rw [List.foldl_cons]
    exact ih _ (gridStep_trades_inv days bm best c h)

lemma gridFoldl_all_skip (days : List BTDay)
    (cells : List (ℚ × ℚ)) (best : BestResult)
    (h : ∀ c ∈ cells, (backtest_numba days c.1 c.2 StrategyConfig.STRAT_COMMISSION
      StrategyConfig.STRAT_INITIAL_CAPITAL).2.1 < StrategyConfig.MIN_STRAT_TRADES) :
    cells.foldl (gridStep days) best = best := by
  induction cells generalizing best with
  | nil => rfl
  | cons c t ih =>
    rw [List.foldl_cons, gridStep_skip days best c (h c (List.mem_cons_self c t))]
    exact ih _ fun x hx => h x (List.mem_cons_of_mem c hx)

/-- Claim C1: a strategy record produced by the grid optimizer always has
`trades ≥ MIN_STRAT_TRADES` and a `total_return` different from the `-999`
sentinel; and when every grid cell's backtest yields fewer than
`MIN_STRAT_TRADES` trades, the worker returns no result at all. -/
theorem worker_result_trades_and_sentinel (days : List BTDay) (bm : ℚ) :
    (∀ r : BestResult, workerOptimizeGrid days bm = some r →
      StrategyConfig.MIN_STRAT_TRADES ≤ r.trades ∧ r.total_return ≠ -999) ∧
    ((∀ c ∈ gridCells, (backtest_numba days c.1 c.2 StrategyConfig.STRAT_COMMISSION
        StrategyConfig.STRAT_INITIAL_CAPITAL).2.1 < StrategyConfig.MIN_STRAT_TRADES) →
      workerOptimizeGrid days bm = none) := by
  constructor
  · intro r hr
    simp only [workerOptimizeGrid] at hr
    by_cases hs : (gridCells.foldl (gridStep days) (initBestResult bm)).total_return = -999
    · rw [if_pos hs] at hr
      cases hr
    · rw [if_neg hs] at hr
      obtain rfl : gridCells.foldl (gridStep days) (initBestResult bm) = r :=
        Option.some.inj hr
      refine ⟨?_, hs⟩
      rcases gridFoldl_trades_inv days bm gridCells (initBestResult bm) (Or.inl rfl) with
        heq | hge
      · exact absurd (by rw [heq]; rfl) hs
      · exact hge
  · intro hall
    simp only [workerOptimizeGrid]
    rw [gridFoldl_all_skip days gridCells (initBestResult bm) hall]
    rw [if_pos (show (initBestResult bm).total_return = -999 from rfl)]

/-- Witness for the C1 theorem: on an empty price array every grid cell's
backtest reports zero trades, so the worker returns `none`. -/
theorem worker_result_trades_and_sentinel_witness :
    (∀ c ∈ gridCells, (backtest_numba [] c.1 c.2 StrategyConfig.STRAT_COMMISSION
        StrategyConfig.STRAT_INITIAL_CAPITAL).2.1 < StrategyConfig.MIN_STRAT_TRADES) ∧
    workerOptimizeGrid [] 0 = none := by
  have h : ∀ c ∈ gridCells, (backtest_numba [] c.1 c.2 StrategyConfig.STRAT_COMMISSION
      StrategyConfig.STRAT_INITIAL_CAPITAL).2.1 < StrategyConfig.MIN_STRAT_TRADES := by
    intro c hc
    show (btFinal [] c.1 c.2 StrategyConfig.STRAT_COMMISSION
      StrategyConfig.STRAT_INITIAL_CAPITAL).tradeCount < StrategyConfig.MIN_STRAT_TRADES
    norm_num [btFinal, btInit, StrategyConfig.MIN_STRAT_TRADES]
  exact ⟨h, (worker_result_trades_and_sentinel [] 0).2 h⟩

lemma btStep_buy (b s c : ℚ) (st : BTState) (d : BTDay)
    (hc : ¬(d.close ≤ 1/10000)) (hm : st.inMarket = false)
    (hb : backtestBuyCond d.bias60 d.rsi b) :
    btStep b s c st d =
      { capital := st.capital
        holdShares := st.capital / (d.close * (1 + c))
        costPrice := d.close
        inMarket := true
        tradeCount := st.tradeCount
        winCount := st.winCount } := by
  unfold btStep
  rw [if_neg hc, if_neg (by rw [hm]; simp), if_pos hb]

lemma btStep_sell (b s c : ℚ) (st : BTState) (d : BTDay)
    (hc : ¬(d.close ≤ 1/10000)) (hm : st.inMarket = true)
    (hs : backtestSellCond d.bias5 d.rsi s) :
    btStep b s c st d =
      { capital := st.holdShares * d.close * (1 - c)
        holdShares := 0
        costPrice := st.costPrice
        inMarket := false
        tradeCount := st.tradeCount + 1
        winCount := st.winCount +
          (if 0 < st.holdShares * d.close * (1 - c) -
              st.holdShares * st.costPrice then 1 else 0) } := by
  unfold btStep
  rw [if_neg hc, if_pos hm, if_pos hs]

/-- A six-bar series on which, for every threshold pair of the
configured grid, the backtester performs the same three (winning) round
trips and returns exactly `0.003` percent: the entry bars have
`bias60 = -0.5 ≤ b` for every grid buy threshold `b ≥ -0.1`, and the exit
bars have `bias5 = 0.2 ≥ s` for every grid sell threshold `s ≤ 0.15`. -/
def c5Days : List BTDay :=
  [{ close := 499, bias5 := 0, bias60 := -1/2, rsi := 0 },
   { close := 501, bias5 := 1/5, bias60 := 1, rsi := 50 },
   { close := 499, bias5 := 0, bias60 := -1/2, rsi := 0 },
   { close := 501, bias5 := 1/5, bias60 := 1, rsi := 50 },
   { close := 49900000, bias5 := 0, bias60 := -1/2, rsi := 0 },
   { close := 50101503, bias5 := 1/5, bias60 := 1, rsi := 50 }]

lemma c5_backtest (b s : ℚ) (hb : -1/10 ≤ b) (hs : s ≤ 3/20) :
    backtest_numba c5Days b s StrategyConfig.STRAT_COMMISSION
      StrategyConfig.STRAT_INITIAL_CAPITAL = (3/1000, 3, 3) := by
  have hbuy0 : backtestBuyCond (-1/2) 0 b :=
    ⟨by linarith, by norm_num [RSI_BUY_THRESHOLD]⟩
  have hsell0 : backtestSellCond (1/5) 50 s := Or.inl (by linarith)
  have h1 : btStep b s StrategyConfig.STRAT_COMMISSION
      (btInit StrategyConfig.STRAT_INITIAL_CAPITAL)
      { close := 499, bias5 := 0, bias60 := -1/2, rsi := 0 } =
      { capital := 100000, holdShares := 50000000/249999, costPrice := 499
        inMarket := true, tradeCount := 0, winCount := 0 } := by
    rw [btStep_buy b s _ _ _ (by norm_num) rfl hbuy0]
    norm_num [btInit, BTState.mk.injEq, StrategyConfig.STRAT_COMMISSION,
      StrategyConfig.STRAT_INITIAL_CAPITAL]
  have h2 : btStep b s StrategyConfig.STRAT_COMMISSION
      { capital := 100000, holdShares := 50000000/249999, costPrice := 499
        inMarket := true, tradeCount := 0, winCount := 0 }
      { close := 501, bias5 := 1/5, bias60 := 1, rsi := 50 } =
      { capital := 100000, holdShares := 0, costPrice := 499
        inMarket := false, tradeCount := 1, winCount := 1 } := by
    rw [btStep_sell b s _ _ _ (by norm_num) rfl hsell0]
    norm_num [BTState.mk.injEq, StrategyConfig.STRAT_COMMISSION]
  have h3 : btStep b s StrategyConfig.STRAT_COMMISSION
      { capital := 100000, holdShares := 0, costPrice := 499
        inMarket := false, tradeCount := 1, winCount := 1 }
      { close := 499, bias5 := 0, bias60 := -1/2, rsi := 0 } =
      { capital := 100000, holdShares := 50000000/249999, costPrice := 499
        inMarket := true, tradeCount := 1, winCount := 1 } := by
    rw [btStep_buy b s _ _ _ (by norm_num) rfl hbuy0]
    norm_num [BTState.mk.injEq, StrategyConfig.STRAT_COMMISSION]
  have h4 : btStep b s StrategyConfig.STRAT_COMMISSION
      { capital := 100000, holdShares := 50000000/249999, costPrice := 499
        inMarket := true, tradeCount := 1, winCount := 1 }
      { close := 501, bias5 := 1/5, bias60 := 1, rsi := 50 } =
      { capital := 100000, holdShares := 0, costPrice := 499
        inMarket := false, tradeCount := 2, winCount := 2 } := by
    rw [btStep_sell b s _ _ _ (by norm_num) rfl hsell0]
    norm_num [BTState.mk.injEq, StrategyConfig.STRAT_COMMISSION]
  have h5 : btStep b s StrategyConfig.STRAT_COMMISSION
      { capital := 100000, holdShares := 0, costPrice := 499
        inMarket := false, tradeCount := 2, winCount := 2 }
      { close := 49900000, bias5 := 0, bias60 := -1/2, rsi := 0 } =
      { capital := 100000, holdShares := 500/249999, costPrice := 49900000
        inMarket := true, tradeCount := 2, winCount := 2 } := by
    rw [btStep_buy b s _ _ _ (by norm_num) rfl hbuy0]
    norm_num [BTState.mk.injEq, StrategyConfig.STRAT_COMMISSION]
  have h6 : btStep b s StrategyConfig.STRAT_COMMISSION
      { capital := 100000, holdShares := 500/249999, costPrice := 49900000
        inMarket := true, tradeCount := 2, winCount := 2 }
      { close := 50101503, bias5 := 1/5, bias60 := 1, rsi := 50 } =
      { capital := 100003, holdShares := 0, costPrice := 49900000
        inMarket := false, tradeCount := 3, winCount := 3 } := by
    rw [btStep_sell b s _ _ _ (by norm_num) rfl hsell0]
    norm_num [BTState.mk.injEq, StrategyConfig.STRAT_COMMISSION]
  have hfold : btFinal c5Days b s StrategyConfig.STRAT_COMMISSION
      StrategyConfig.STRAT_INITIAL_CAPITAL =
      { capital := 100003, holdShares := 0, costPrice := 49900000
        inMarket := false, tradeCount := 3, winCount := 3 } := by
    simp only [btFinal, c5Days, List.foldl_cons, List.foldl_nil]
    rw [h1, h2, h3, h4, h5, h6]
  simp only [backtest_numba]
  rw [hfold]
  norm_num [Prod.ext_iff, StrategyConfig.STRAT_INITIAL_CAPITAL]

lemma buyRange_count :
    (⌈(StrategyConfig.STRAT_BUY_RANGE.2.1 - StrategyConfig.STRAT_BUY_RANGE.1) /
      StrategyConfig.STRAT_BUY_RANGE.2.2⌉).toNat = 101 := by
  have h : (⌈(StrategyConfig.STRAT_BUY_RANGE.2.1 - StrategyConfig.STRAT_BUY_RANGE.1) /
      StrategyConfig.STRAT_BUY_RANGE.2.2⌉ : ℤ) = 101 := by
    norm_num [StrategyConfig.STRAT_BUY_RANGE, Int.ceil_eq_iff]
  rw [h]
  rfl

lemma sellRange_count :
    (⌈(StrategyConfig.STRAT_SELL_RANGE.2.1 - StrategyConfig.STRAT_SELL_RANGE.1) /
      StrategyConfig.STRAT_SELL_RANGE.2.2⌉).toNat = 76 := by
  have h : (⌈(StrategyConfig.STRAT_SELL_RANGE.2.1 - StrategyConfig.STRAT_SELL_RANGE.1) /
      StrategyConfig.STRAT_SELL_RANGE.2.2⌉ : ℤ) = 76 := by
    norm_num [StrategyConfig.STRAT_SELL_RANGE, Int.ceil_eq_iff]
  rw [h]
  rfl

lemma mem_npArange {x start stop step : ℚ} (h : x ∈ npArange start stop step) :
    ∃ i : ℕ, i < (⌈(stop - start) / step⌉).toNat ∧ x = start + i * step := by
  rw [npArange, List.mem_map] at h
  obtain ⟨i, hi, he⟩ := h
  rw [List.mem_range] at hi
  exact ⟨i, hi, he.symm⟩

lemma mem_gridCells_bounds (c : ℚ × ℚ) (hc : c ∈ gridCells) :
    -1/10 ≤ c.1 ∧ c.2 ≤ 3/20 := by
  rw [gridCells, List.mem_flatMap] at hc
  obtain ⟨b, hb, hcb⟩ := hc
  rw [List.mem_map] at hcb
  obtain ⟨s, hsmem, rfl⟩ := hcb
  rw [buyRange] at hb
  rw [sellRange] at hsmem
  obtain ⟨i, hi, rfl⟩ := mem_npArange hb
  obtain ⟨j, hj, rfl⟩ := mem_npArange hsmem
  rw [sellRange_count] at hj
  constructor
  · have hi0 : (0 : ℚ) ≤ (i : ℚ) := Nat.cast_nonneg i
    have hmul : (0 : ℚ) ≤ (i : ℚ) * StrategyConfig.STRAT_BUY_RANGE.2.2 :=
      mul_nonneg hi0 (by norm_num [StrategyConfig.STRAT_BUY_RANGE])
    simp only [StrategyConfig.STRAT_BUY_RANGE] at hmul ⊢
    linarith
  · have hj75 : (j : ℚ) ≤ 75 := by
      exact_mod_cast Nat.lt_succ_iff.mp hj
    have hmul : (j : ℚ) * StrategyConfig.STRAT_SELL_RANGE.2.2 ≤
        75 * StrategyConfig.STRAT_SELL_RANGE.2.2 :=
      mul_le_mul_of_nonneg_right hj75 (by norm_num [StrategyConfig.STRAT_SELL_RANGE])
    simp only [StrategyConfig.STRAT_SELL_RANGE] at hmul ⊢
    norm_num at hmul ⊢
    linarith

lemma range_getLast? (n : ℕ) : (List.range (n + 1)).getLast? = some n := by
  rw [List.range_succ]
  exact List.getLast?_concat _

lemma buyRange_getLast? : buyRange.getLast? = some (1/10) := by
  rw [buyRange, npArange, buyRange_count, List.getLast?_map,
    show (101 : ℕ) = 100 + 1 from rfl, range_getLast? 100]
  norm_num [StrategyConfig.STRAT_BUY_RANGE]

lemma sellRange_getLast? : sellRange.getLast? = some (3/20) := by
  rw [sellRange, npArange, sellRange_count, List.getLast?_map,
    show (76 : ℕ) = 75 + 1 from rfl, range_getLast? 75]
  norm_num [StrategyConfig.STRAT_SELL_RANGE]

lemma getLast?_flatMap_pair (l1 l2 : List ℚ) (x y : ℚ)
    (h1 : l1.getLast? = some x) (h2 : l2.getLast? = some y) :
    (l1.flatMap fun b => l2.map fun s => (b, s)).getLast? = some (x, y) := by
  induction l1 with
  | nil => simp at h1
  | cons a t ih =>
    cases t with
    | nil =>
      simp only [List.getLast?_singleton, Option.some.injEq] at h1
      subst h1
      simp only [List.flatMap_cons, List.flatMap_nil, List.append_nil,
        List.getLast?_map, h2, Option.map_some']
    | cons a' t' =>
      have h1' : (a' :: t').getLast? = some x := by
        rwa [List.getLast?_cons_cons] at h1
      rw [List.flatMap_cons, List.getLast?_append, ih h1']
      rfl

lemma gridCells_getLast? : gridCells.getLast? = some (1/10, 3/20) :=
  getLast?_flatMap_pair buyRange sellRange (1/10) (3/20)
    buyRange_getLast? sellRange_getLast?

lemma neg_tenth_zero_mem_gridCells : ((-1/10, 0) : ℚ × ℚ) ∈ gridCells := by
  rw [gridCells, List.mem_flatMap]
  refine ⟨-1/10, ?_, ?_⟩
  · rw [buyRange, npArange, List.mem_map]
    refine ⟨0, ?_, by norm_num [StrategyConfig.STRAT_BUY_RANGE]⟩
    rw [List.mem_range, buyRange_count]
    norm_num
  · rw [List.mem_map]
    refine ⟨0, ?_, rfl⟩
    rw [sellRange, npArange, List.mem_map]
    refine ⟨0, ?_, by norm_num [StrategyConfig.STRAT_SELL_RANGE]⟩
    rw [List.mem_range, sellRange_count]
    norm_num

lemma gridFoldl_const_update (days : List BTDay) (r0 : ℚ) (t0 w0 : ℕ)
    (ht : StrategyConfig.MIN_STRAT_TRADES ≤ t0) (hpos : 0 < t0)
    (hrd : pyRound r0 2 < r0) :
    ∀ (cells : List (ℚ × ℚ)) (best : BestResult),
      (∀ c ∈ cells, backtest_numba days c.1 c.2 StrategyConfig.STRAT_COMMISSION
        StrategyConfig.STRAT_INITIAL_CAPITAL = (r0, t0, w0)) →
      best.total_return < r0 →
      ∀ lastc, cells.getLast? = some lastc →
      cells.foldl (gridStep days) best =
        { total_return := pyRound r0 2
          benchmark_return := best.benchmark_return
          buy_ma60_bias := pyRound (lastc.1 * 100) 1
          sell_ma5_bias := pyRound (lastc.2 * 100) 1
          win_rate := pyRound ((w0 : ℚ) / (t0 : ℚ) * 100) 1
          trades := t0 } := by
  intro cells
  induction cells with
  | nil =>
    intro best hall hlt lastc hl
    simp at hl
  | cons c t ih =>
    intro best hall hlt lastc hl
    have hc := hall c (List.mem_cons_self c t)
    have hstep : gridStep days best c =
        { total_return := pyRound r0 2
          benchmark_return := best.benchmark_return
          buy_ma60_bias := pyRound (c.1 * 100) 1
          sell_ma5_bias := pyRound (c.2 * 100) 1
          win_rate := pyRound ((w0 : ℚ) / (t0 : ℚ) * 100) 1
          trades := t0 } := by
      unfold gridStep
      rw [hc]
      rw [if_neg (not_lt.2 ht), if_pos hlt, if_pos hpos]
    cases t with
    | nil =>
      simp only [List.getLast?_singleton, Option.some.injEq] at hl
      subst hl
      rw [List.foldl_cons, List.foldl_nil, hstep]
    | cons c' t' =>
      have hl' : (c' :: t').getLast? = some lastc := by
        rwa [List.getLast?_cons_cons] at hl
      rw [List.foldl_cons, hstep]
      exact ih _ (fun x hx => hall x (List.mem_cons_of_mem c hx)) hrd lastc hl'

/-- Counterexample to claim C5 as stated: on `c5Days` every grid cell
qualifies (3 trades) with the same — hence maximal — raw total return
`0.003`, whose 2-decimal rounding is `0.0 < 0.003`; so every later cell
strictly beats the *stored rounded* best and replaces it, and the worker
reports the parameters of the **last** grid cell (buy bias 10%, sell bias
15%) instead of the lowest qualifying pair (−10%, 0%). -/
theorem grid_tiebreak_lowest_pair_cex :
    (∀ c ∈ gridCells, backtest_numba c5Days c.1 c.2 StrategyConfig.STRAT_COMMISSION
        StrategyConfig.STRAT_INITIAL_CAPITAL = (3/1000, 3, 3)) ∧
    ((-1/10, 0) : ℚ × ℚ) ∈ gridCells ∧
    pyRound ((-1/10 : ℚ) * 100) 1 = -10 ∧
    workerOptimizeGrid c5Days 0 = some
      { total_return := 0, benchmark_return := 0, buy_ma60_bias := 10
        sell_ma5_bias := 15, win_rate := 100, trades := 3 } ∧
    (10 : ℚ) ≠ -10 := by
  have hall : ∀ c ∈ gridCells, backtest_numba c5Days c.1 c.2
      StrategyConfig.STRAT_COMMISSION StrategyConfig.STRAT_INITIAL_CAPITAL =
      (3/1000, 3, 3) := by
    intro c hc
    obtain ⟨hb, hs⟩ := mem_gridCells_bounds c hc
    exact c5_backtest c.1 c.2 hb hs
  have hrd : pyRound (3/1000) 2 < 3/1000 := by
    norm_num [pyRound, roundHalfEven]
  have hfold := gridFoldl_const_update c5Days (3/1000) 3 3
    (by norm_num [StrategyConfig.MIN_STRAT_TRADES]) (by norm_num) hrd gridCells
    (initBestResult 0) hall (by norm_num [initBestResult]) (1/10, 3/20)
    gridCells_getLast?
  refine ⟨hall, neg_tenth_zero_mem_gridCells, ?_, ?_, by norm_num⟩
  · norm_num [pyRound, roundHalfEven]
  · simp only [workerOptimizeGrid]
    rw [hfold]
    norm_num [pyRound, roundHalfEven, BestResult.mk.injEq, initBestResult]

/-- Claim C5 (amended): the optimizer iterates buy thresholds ascending
and sell thresholds ascending, but each cell's **raw** return is compared
against the previously stored best return, which was **rounded to two
decimals** when stored; the running best is replaced exactly when the
cell has at least `MIN_STRAT_TRADES` trades and its raw return strictly
exceeds that rounded stored value.  (Consequently first-seen-wins
tie-breaking — and hence lowest-buy-then-lowest-sell reporting among
equal-return maximizers — fails whenever the maximal return exceeds its
own 2-decimal rounding, as `grid_tiebreak_lowest_pair_cex` shows.) -/
theorem grid_selection_rule_amended :
    buyRange.Sorted (· < ·) ∧ sellRange.Sorted (· < ·) ∧
    (∀ (days : List BTDay) (best : BestResult) (b s : ℚ),
      ((backtest_numba days b s StrategyConfig.STRAT_COMMISSION
          StrategyConfig.STRAT_INITIAL_CAPITAL).2.1 <
            StrategyConfig.MIN_STRAT_TRADES →
        gridStep days best (b, s) = best) ∧
      (StrategyConfig.MIN_STRAT_TRADES ≤ (backtest_numba days b s
          StrategyConfig.STRAT_COMMISSION
          StrategyConfig.STRAT_INITIAL_CAPITAL).2.1 →
        (backtest_numba days b s StrategyConfig.STRAT_COMMISSION
          StrategyConfig.STRAT_INITIAL_CAPITAL).1 ≤ best.total_return →
        gridStep days best (b, s) = best) ∧
      (StrategyConfig.MIN_STRAT_TRADES ≤ (backtest_numba days b s
          StrategyConfig.STRAT_COMMISSION
          StrategyConfig.STRAT_INITIAL_CAPITAL).2.1 →
        best.total_return < (backtest_numba days b s
          StrategyConfig.STRAT_COMMISSION
          StrategyConfig.STRAT_INITIAL_CAPITAL).1 →
        gridStep days best (b, s) =
          { total_return := pyRound (backtest_numba days b s
              StrategyConfig.STRAT_COMMISSION
              StrategyConfig.STRAT_INITIAL_CAPITAL).1 2
            benchmark_return := best.benchmark_return
            buy_ma60_bias := pyRound (b * 100) 1
            sell_ma5_bias := pyRound (s * 100) 1
            win_rate := pyRound (((backtest_numba days b s
                StrategyConfig.STRAT_COMMISSION
                StrategyConfig.STRAT_INITIAL_CAPITAL).2.2 : ℚ) /
              ((backtest_numba days b s StrategyConfig.STRAT_COMMISSION
                StrategyConfig.STRAT_INITIAL_CAPITAL).2.1 : ℚ) * 100) 1
            trades := (backtest_numba days b s StrategyConfig.STRAT_COMMISSION
              StrategyConfig.STRAT_INITIAL_CAPITAL).2.1 })) := by
  have hsorted : ∀ start stop step : ℚ, 0 < step →
      (npArange start stop step).Sorted (· < ·) := by
    intro start stop step hstep
    exact List.Pairwise.map _
      (fun a b hab => by
        have hc : (a : ℚ) < (b : ℚ) := by exact_mod_cast hab
        have := mul_lt_mul_of_pos_right hc hstep
        linarith)
      (List.pairwise_lt_range _)
  refine ⟨hsorted _ _ _ (by norm_num [StrategyConfig.STRAT_BUY_RANGE]),
    hsorted _ _ _ (by norm_num [StrategyConfig.STRAT_SELL_RANGE]),
    fun days best b s => ⟨?_, ?_, ?_⟩⟩
  · intro h1
    exact gridStep_skip days best (b, s) h1
  · intro h1 h2
    simp only [gridStep]
    rw [if_neg (not_lt.2 h1), if_neg (not_lt.2 h2)]
  · intro h1 h2
    simp only [gridStep]
    rw [if_neg (not_lt.2 h1), if_pos h2,
      if_pos (lt_of_lt_of_le (by norm_num [StrategyConfig.MIN_STRAT_TRADES]) h1)]

/-- Witness for the amended C5 theorem: on the empty array the first
implication applies (zero trades), so the skip branch is taken. -/
theorem grid_selection_rule_amended_witness :
    (backtest_numba [] 0 0 StrategyConfig.STRAT_COMMISSION
      StrategyConfig.STRAT_INITIAL_CAPITAL).2.1 < StrategyConfig.MIN_STRAT_TRADES ∧
    gridStep [] (initBestResult 0) (0, 0) = initBestResult 0 := by
  have h : (backtest_numba [] 0 0 StrategyConfig.STRAT_COMMISSION
      StrategyConfig.STRAT_INITIAL_CAPITAL).2.1 < StrategyConfig.MIN_STRAT_TRADES := by
    show (btFinal [] 0 0 StrategyConfig.STRAT_COMMISSION
      StrategyConfig.STRAT_INITIAL_CAPITAL).tradeCount < StrategyConfig.MIN_STRAT_TRADES
    norm_num [btFinal, btInit, StrategyConfig.MIN_STRAT_TRADES]
  exact ⟨h, (grid_selection_rule_amended.2.2 [] (initBestResult 0) 0 0).1 h⟩

/-! ## The moving-average interruption gate (`_check_ma_interruption`,
lines 498–505; claim C6)

A window row is a pair of its close and its (possibly missing) long-MA
value (`trend_long` is NaN on the first `TREND_MA_LONG - 1` rows of the
full frame).  `valid_ma = df_subset.dropna(subset=['trend_long'])` keeps
the rows with a long-MA value; the `groupby(cumsum-of-changes)` trick
groups the boolean series `close < trend_long` into maximal constant
runs, sums each group (`False` rows contribute 0) and takes the max. -/

/-- The rows of `valid_ma`: close paired with the present long-MA value. -/
def validMa (rows : List (ℚ × Option ℚ)) : List (ℚ × ℚ) :=
  rows.filterMap fun p => p.2.map fun m => (p.1, m)

/-- `is_below = valid_ma['close'] < valid_ma['trend_long']` (line 502). -/
def isBelowList (v : List (ℚ × ℚ)) : List Bool :=
  v.map fun p => decide (p.1 < p.2)

/-- Run-length encoding: the groups produced by
`is_below.ne(is_below.shift()).cumsum()` (line 503), head group first. -/
def rle : List Bool → List (Bool × ℕ)
  | [] => []
  | b :: t =>
    match rle t with
    | [] => [(b, 1)]
    | (c, k) :: r => if b = c then (c, k + 1) :: r else (b, 1) :: (c, k) :: r

/-- `consecutive.max()` over the group sums (line 504): a `True` group of
length `k` sums to `k`, a `False` group to 0. -/
def groupMax (gs : List (Bool × ℕ)) : ℕ :=
  (gs.map fun g => cond g.1 g.2 0).foldr max 0

/-- `_check_ma_interruption` (lines 498–505): `True` when the window has
no valid long-MA rows at all, otherwise `consecutive.max() >= 5`. -/
def checkMaInterruption (rows : List (ℚ × Option ℚ)) : Bool :=
  if (validMa rows).isEmpty then true
  else decide (5 ≤ groupMax (rle (isBelowList (validMa rows))))

/-- Specification-side longest run: `(ltr l).1` is the length of the
leading run of `true`s, `(ltr l).2` the length of the longest run of
`true`s anywhere in `l`. -/
def ltr : List Bool → ℕ × ℕ
  | [] => (0, 0)
  | true :: t => ((ltr t).1 + 1, max ((ltr t).1 + 1) (ltr t).2)
  | false :: t => (0, (ltr t).2)

/-- The length of the longest consecutive run of `true`s. -/
def longestTrueRun (l : List Bool) : ℕ := (ltr l).2

lemma groupMax_cons (g : Bool × ℕ) (gs : List (Bool × ℕ)) :
    groupMax (g :: gs) = max (cond g.1 g.2 0) (groupMax gs) := rfl

lemma rle_cons_eq (b : Bool) (t : List Bool) (c : Bool) (k : ℕ)
    (r : List (Bool × ℕ)) (h : rle t = (c, k) :: r) :
    rle (b :: t) = if b = c then (c, k + 1) :: r
      else (b, 1) :: (c, k) :: r := by
  show (match rle t with
    | [] => [(b, 1)]
    | (c, k) :: r => if b = c then (c, k + 1) :: r
      else (b, 1) :: (c, k) :: r) = _
  rw [h]

lemma rle_spec : ∀ l : List Bool,
    groupMax (rle l) = (ltr l).2 ∧
    (∀ x t', l = x :: t' →
      ∃ k r, rle l = (x, k) :: r ∧
        (x = true → k = (ltr l).1) ∧ (x = false → (ltr l).1 = 0)) := by
  intro l
  induction l with
  | nil => exact ⟨rfl, fun x t' h => by cases h⟩
  | cons b t ih =>
    obtain ⟨ihmax, ihcons⟩ := ih
    cases t with
    | nil =>
      refine ⟨?_, fun x t' h => ?_⟩
      · cases b <;> rfl
      · injection h with h1 h2
        subst h1
        subst h2
        cases b
        · exact ⟨1, [], rfl, fun h => Bool.noConfusion h, fun _ => rfl⟩
        · exact ⟨1, [], rfl, fun _ => rfl, fun h => Bool.noConfusion h⟩
    | cons x t' =>
      obtain ⟨k, r, hr, hktrue, hkfalse⟩ := ihcons x t' rfl
      have hgmt : (ltr (x :: t')).2 = max (cond x k 0) (groupMax r) := by
        rw [← ihmax, hr, groupMax_cons]
      by_cases hbx : b = x
      · subst hbx
        have hstep : rle (b :: b :: t') = (b, k + 1) :: r := by
          rw [rle_cons_eq b (b :: t') b k r hr, if_pos rfl]
        refine ⟨?_, fun y ty hy => ?_⟩
        · rw [hstep, groupMax_cons]
          cases b
          · show max 0 (groupMax r) = (ltr (false :: false :: t')).2
            show max 0 (groupMax r) = (ltr (false :: t')).2
            rw [hgmt]
            simp
          · show max (k + 1) (groupMax r) = (ltr (true :: true :: t')).2
            have hk : k = (ltr (true :: t')).1 := hktrue rfl
            show max (k + 1) (groupMax r) =
              max ((ltr (true :: t')).1 + 1) ((ltr (true :: t')).2)
            rw [hgmt, ← hk]
            show max (k + 1) (groupMax r) = max (k + 1) (max k (groupMax r))
            omega
        · injection hy with h1 h2
          subst h1
          subst h2
          refine ⟨k + 1, r, hstep, ?_, ?_⟩
          · intro hb
            subst hb
            have hk : k = (ltr (true :: t')).1 := hktrue rfl
            show k + 1 = (ltr (true :: t')).1 + 1
            omega
          · intro hb
            subst hb
            rfl
      · have hstep : rle (b :: x :: t') = (b, 1) :: (x, k) :: r := by
          rw [rle_cons_eq b (x :: t') x k r hr, if_neg hbx]
        refine ⟨?_, fun y ty hy => ?_⟩
        · rw [hstep, groupMax_cons, groupMax_cons, ← hgmt]
          cases b
          · show max 0 ((ltr (x :: t')).2) = (ltr (false :: x :: t')).2
            show max 0 ((ltr (x :: t')).2) = (ltr (x :: t')).2
            omega
          · have hx : x = false := by
              cases x
              · rfl
              · exact absurd rfl hbx
            subst hx
            have h0 : (ltr (false :: t')).1 = 0 := hkfalse rfl
            show max 1 ((ltr (false :: t')).2) = (ltr (true :: false :: t')).2
            show max 1 ((ltr (false :: t')).2) =
              max ((ltr (false :: t')).1 + 1) ((ltr (false :: t')).2)
            omega
        · injection hy with h1 h2
          subst h1
          subst h2
          refine ⟨1, (x, k) :: r, hstep, ?_, ?_⟩
          · intro hb
            subst hb
            have hx : x = false := by
              cases x
              · rfl
              · exact absurd rfl hbx
            subst hx
            have h0 : (ltr (false :: t')).1 = 0 := hkfalse rfl
            show 1 = (ltr (false :: t')).1 + 1
            omega
          · intro hb
            subst hb
            rfl

/-- Claim C6: the MA-interruption gate fails a window iff either the
window has no valid long-MA rows at all, or — among the valid rows — the
longest consecutive run of days whose close is strictly below the long MA
has length at least 5. -/
theorem ma_interruption_iff_longest_run (rows : List (ℚ × Option ℚ)) :
    checkMaInterruption rows = true ↔
      validMa rows = [] ∨
        5 ≤ longestTrueRun (isBelowList (validMa rows)) := by
  unfold checkMaInterruption
  by_cases hv : validMa rows = []
  · simp [hv]
  · rw [if_neg (by simpa [List.isEmpty_iff] using hv)]
    rw [decide_eq_true_eq, longestTrueRun, ← (rle_spec (isBelowList (validMa rows))).1]
    exact ⟨fun h => Or.inr h, fun h => h.resolve_left hv⟩

/-! ## The trend classifier (`_analyze_single_stock`, lines 412–496)

Dates are modelled as Gregorian calendar dates; pandas timestamp
subtraction `.days` becomes a difference of epoch day numbers, and
`pd.DateOffset(years=k)` subtraction becomes "same month/day `k` years
earlier, day clamped to the target month's length" (Feb 29 → Feb 28). -/

/-- A calendar date. -/
structure HDate where
  year : ℤ
  month : ℤ
  day : ℤ
  deriving DecidableEq, Repr

/-- Gregorian leap-year test. -/
def isLeapYear (y : ℤ) : Bool :=
  (y % 4 == 0 && y % 100 != 0) || (y % 400 == 0)

/-- Number of days in a month. -/
def daysInMonth (y m : ℤ) : ℤ :=
  if m = 2 then (if isLeapYear y then 29 else 28)
  else if m = 4 ∨ m = 6 ∨ m = 9 ∨ m = 11 then 30
  else 31

/-- Days since 1970-01-01 (standard civil-calendar formula). -/
def toEpochDays (d : HDate) : ℤ :=
  let y := if d.month ≤ 2 then d.year - 1 else d.year
  let era := (if 0 ≤ y then y else y - 399) / 400
  let yoe := y - era * 400
  let mp := (d.month + 9) % 12
  let doy := (153 * mp + 2) / 5 + d.day - 1
  let doe := yoe * 365 + yoe / 4 - yoe / 100 + doy
  era * 146097 + doe - 719468

/-- `date - pd.DateOffset(years=k)`: same month and day `k` years
earlier, with the day clamped into the target month. -/
def dateOffsetYearsNeg (d : HDate) (k : ℕ) : HDate :=
  { year := d.year - k, month := d.month
    day := min d.day (daysInMonth (d.year - k) d.month) }

/-- `(a - b).days` for date-valued pandas timestamps. -/
def diffDays (a b : HDate) : ℤ := toEpochDays a - toEpochDays b

/-- Timestamp comparison `b <= a` used by the window mask. -/
def dateLe (a b : HDate) : Bool := decide (toEpochDays a ≤ toEpochDays b)

/-- One `qfq_history` record as consumed by `_analyze_single_stock`:
only `date`, `close` and `volume` are read. -/
structure QfqRow where
  date : HDate
  close : ℚ
  volume : ℚ
  deriving DecidableEq, Repr

/-- The per-stock document fed to `_analyze_single_stock`: the stock code,
`latest_data["总市值(港元)"]`, `latest_data["股东权益回报率(%)"]` (both
possibly missing) and the price history. -/
structure StockDoc where
  id : String
  mcap : Option ℚ
  roe : Option ℚ
  qfq : List QfqRow

/-- The close column of the frame. -/
def closes (q : List QfqRow) : List ℚ := q.map QfqRow.close

/-- `df['amount_est'] = df['close'] * df['volume']` (line 436; the
branch for a frame without a volume column sets `amount_est = 0`, which
can never pass the turnover floor, so history rows carry their volume). -/
def amountEst (r : QfqRow) : ℚ := r.close * r.volume

/-- `Series.rolling(w).mean()` at position `i`: mean of the `w` values
ending at `i`, `NaN` (here `none`) while fewer than `w` values exist. -/
def rollMean (w : ℕ) (xs : List ℚ) (i : ℕ) : Option ℚ :=
  if i + 1 < w then none
  else some ((((xs.take (i + 1)).drop (i + 1 - w)).sum) / w)

/-- The trend-break circuit breaker (lines 443–449): with more than
`TREND_BREAK_CHECK_DAYS` records and both MAs present on the latest bar,
break iff `trend_short < trend_long` (dead cross) and
`trend_long < trend_long of df.iloc[-20]` (long MA still falling); a
missing `prev_20` value compares as false, as NaN does in pandas. -/
def trendBreak (q : List QfqRow) : Bool :=
  if StrategyConfig.TREND_BREAK_CHECK_DAYS < q.length then
    match rollMean StrategyConfig.TREND_MA_SHORT (closes q) (q.length - 1),
        rollMean StrategyConfig.TREND_MA_LONG (closes q) (q.length - 1) with
    | some s, some l =>
      (match rollMean StrategyConfig.TREND_MA_LONG (closes q) (q.length - 20) with
       | some p => decide (s < l) && decide (l < p)
       | none => false)
    | _, _ => false
  else false

/-- Every frame row paired with its full-frame `trend_long` value
(line 441), which the window slices inherit. -/
def enrich (q : List QfqRow) : List (QfqRow × Option ℚ) :=
  q.enum.map fun p =>
    (p.2, rollMean StrategyConfig.TREND_MA_LONG (closes q) p.1)

/-- `df['date'].iloc[-1]` (line 451). -/
def latestDate (q : List QfqRow) : HDate :=
  ((q.getLast?).map QfqRow.date).getD { year := 1970, month := 1, day := 1 }

/-- `target_start = latest_date - pd.DateOffset(years=year)` (line 456). -/
def targetStart (q : List QfqRow) (year : ℕ) : HDate :=
  dateOffsetYearsNeg (latestDate q) year

/-- `df_sub = df[df['date'] >= target_start]` (lines 459–461), rows
carrying their full-frame `trend_long`. -/
def windowRows (q : List QfqRow) (year : ℕ) : List (QfqRow × Option ℚ) :=
  (enrich q).filter fun p => dateLe (targetStart q year) p.1.date

/-- `df_sub['date'].iloc[0]`. -/
def windowHeadDate (rows : List (QfqRow × Option ℚ)) : HDate :=
  ((rows.head?).map fun p => p.1.date).getD { year := 1970, month := 1, day := 1 }

/-! The log-linear regression (`scipy.stats.linregress` on
`x = (date - start).days / 365.25`, `y = ln close`; lines 469–478). -/

/-- Arithmetic mean of a list of reals (0 on the empty list). -/
noncomputable def listMean (xs : List ℝ) : ℝ := xs.sum / xs.length

/-- Centered second moment `Σ (x - x̄)²`. -/
noncomputable def sXX (xs : List ℝ) : ℝ :=
  (xs.map fun x => (x - listMean xs) ^ 2).sum

/-- Centered cross moment `Σ (x - x̄)(y - ȳ)`. -/
noncomputable def sXY (xs ys : List ℝ) : ℝ :=
  ((xs.zip ys).map fun p => (p.1 - listMean xs) * (p.2 - listMean ys)).sum

/-- OLS slope `Sxy / Sxx` as computed by `stats.linregress`. -/
noncomputable def linregressSlope (xs ys : List ℝ) : ℝ := sXY xs ys / sXX xs

/-- `r_value ** 2 = Sxy² / (Sxx·Syy)` as computed by `stats.linregress`. -/
noncomputable def linregressR2 (xs ys : List ℝ) : ℝ :=
  (sXY xs ys) ^ 2 / (sXX xs * sXX ys)

/-- `ann_ret = (np.exp(slope) - 1) * 100` (line 478). -/
noncomputable def annualizedReturnPct (slope : ℝ) : ℝ :=
  (Real.exp slope - 1) * 100

/-- `x_data = (df_sub['date'] - start_ts).dt.days.values / 365.25`
(lines 472–473). -/
noncomputable def winXs (rows : List (QfqRow × Option ℚ)) : List ℝ :=
  rows.map fun p =>
    ((diffDays p.1.date (windowHeadDate rows) : ℤ) : ℝ) / 365.25

/-- `log_y = np.log(y_data)` (line 474). -/
noncomputable def winLogCloses (rows : List (QfqRow × Option ℚ)) : List ℝ :=
  rows.map fun p => Real.log ((p.1.close : ℚ) : ℝ)

/-- All per-window gates of the `for year in [5,4,3,2,1]` loop body
(lines 455–481): nonempty slice, history coverage within 30 days of the
target start, turnover floor, no moving-average interruption, enough
positive samples, and regression acceptance
(`r² ≥ 0.80`, `slope > 0`, annualized return within bounds). -/
def windowPass (q : List QfqRow) (year : ℕ) : Prop :=
  windowRows q year ≠ [] ∧
  diffDays (windowHeadDate (windowRows q year)) (targetStart q year) ≤ 30 ∧
  (StrategyConfig.MIN_TURNOVER : ℚ) ≤
    ((windowRows q year).map fun p => amountEst p.1).sum /
      ((windowRows q year).length : ℚ) ∧
  checkMaInterruption ((windowRows q year).map fun p => (p.1.close, p.2)) = false ∧
  StrategyConfig.MIN_REGRESSION_SAMPLES ≤ (windowRows q year).length ∧
  (∀ p ∈ windowRows q year, 0 < p.1.close) ∧
  ((StrategyConfig.MIN_R_SQUARED : ℚ) : ℝ) ≤
    linregressR2 (winXs (windowRows q year)) (winLogCloses (windowRows q year)) ∧
  0 < linregressSlope (winXs (windowRows q year)) (winLogCloses (windowRows q year)) ∧
  ((StrategyConfig.MIN_ANNUAL_RETURN : ℚ) : ℝ) ≤
    annualizedReturnPct
      (linregressSlope (winXs (windowRows q year)) (winLogCloses (windowRows q year))) ∧
  annualizedReturnPct
      (linregressSlope (winXs (windowRows q year)) (winLogCloses (windowRows q year))) ≤
    ((StrategyConfig.MAX_ANNUAL_RETURN : ℚ) : ℝ)

noncomputable instance (q : List QfqRow) (year : ℕ) : Decidable (windowPass q year) := by
  unfold windowPass
  infer_instance

/-- Round-half-even at `d` decimals over the reals, mirroring `pyRound`
for the rounded fields of the stored verdict. -/
noncomputable def pyRoundR (x : ℝ) (d : ℕ) : ℝ :=
  ((if x * 10 ^ d - ⌊x * 10 ^ d⌋ < 1/2 then (⌊x * 10 ^ d⌋ : ℤ)
    else if (1:ℝ)/2 < x * 10 ^ d - ⌊x * 10 ^ d⌋ then ⌊x * 10 ^ d⌋ + 1
    else if ⌊x * 10 ^ d⌋ % 2 = 0 then ⌊x * 10 ^ d⌋ else ⌊x * 10 ^ d⌋ + 1) : ℝ)
    / 10 ^ d

/-- The stored `bull_label`/`trend_analysis` payload (lines 482–490);
`updated_at` (wall-clock) is outside the model, and the label string
`f"长牛{year}年"` is determined by `period_years`. -/
structure TrendVerdict where
  r_squared : ℝ
  annual_return_pct : ℝ
  slope : ℝ
  period_years : ℕ
  avg_turnover : ℝ

/-- The `trend_analysis` record stored on acceptance (lines 483–490). -/
noncomputable def mkVerdict (q : List QfqRow) (year : ℕ) : TrendVerdict :=
  { r_squared := pyRoundR
      (linregressR2 (winXs (windowRows q year)) (winLogCloses (windowRows q year))) 4
    annual_return_pct := pyRoundR
      (annualizedReturnPct (linregressSlope (winXs (windowRows q year))
        (winLogCloses (windowRows q year)))) 2
    slope := pyRoundR
      (linregressSlope (winXs (windowRows q year)) (winLogCloses (windowRows q year))) 6
    period_years := year
    avg_turnover := pyRoundR
      (((((windowRows q year).map fun p => amountEst p.1).sum /
        ((windowRows q year).length : ℚ) : ℚ) : ℝ)) 0 }

/-- `str(code).startswith("8")` (line 216): the code's first character
is `'8'`. -/
def codeStartsWith8 (code : String) : Bool :=
  match code.data with
  | [] => false
  | c :: _ => c == '8'

/-- The fundamental pre-gate of `_analyze_single_stock` (line 418):
reject when the market cap is missing or below `MIN_MARKET_CAP`, or the
ROE is missing or non-positive. -/
def preGateFail (doc : StockDoc) : Bool :=
  (match doc.mcap with
   | none => true
   | some m => decide (m < StrategyConfig.MIN_MARKET_CAP)) ||
  (match doc.roe with
   | none => true
   | some r => decide (r ≤ 0))

/-- The database effect of `_analyze_single_stock` (lines 412–496) on the
stock's own record: `none` = no write (empty history, and the external
`akshare` re-fetch — outside the model — yields nothing), `some none` =
`$unset` of `bull_label`/`trend_analysis`, `some (some v)` = `$set`.
The year loop tries `[5, 4, 3, 2, 1]` in order and stops at the first
year whose gates all pass. -/
noncomputable def classifySingleStock (doc : StockDoc) : Option (Option TrendVerdict) :=
  if preGateFail doc then some none
  else if doc.qfq = [] then none
  else if trendBreak doc.qfq then some none
  else some (([5, 4, 3, 2, 1].find? fun y => decide (windowPass doc.qfq y)).map
    fun y => mkVerdict doc.qfq y)

/-- The classifier's reported window length, when a label was set. -/
noncomputable def classifiedYear (doc : StockDoc) : Option ℕ :=
  match classifySingleStock doc with
  | some (some v) => some v.period_years
  | _ => none

/-! ## The trend-analysis batch (`AnalysisService.analyze_trend`,
lines 198–232; claim C10)

The persistence layer is a map from stock code to the stored
label/verdict; each stock's classification writes only to its own code,
and codes starting with `"8"` are skipped before any other work. -/

/-- The stored `bull_label`/`trend_analysis` state per stock code. -/
def Store := String → Option TrendVerdict

/-- Apply `_analyze_single_stock`'s database effect for one document. -/
noncomputable def applyClassify (st : Store) (doc : StockDoc) : Store :=
  match classifySingleStock doc with
  | none => st
  | some none => fun c => if c = doc.id then none else st c
  | some (some v) => fun c => if c = doc.id then some v else st c

/-- One iteration of the `for i, basic_doc in enumerate(...)` loop
(lines 212–227): codes starting with `"8"` are skipped outright
(progress reporting and sleeps carry no database effect). -/
noncomputable def analyzeTrendStep (st : Store) (doc : StockDoc) : Store :=
  if codeStartsWith8 doc.id then st else applyClassify st doc

/-- `AnalysisService.analyze_trend`: the batch pass over all documents. -/
noncomputable def analyze_trend (docs : List StockDoc) (st : Store) : Store :=
  docs.foldl analyzeTrendStep st

/-! ## Classifier theorems (claims C2, C3, C7, C10) -/

/-- Claim C3: when the series has more than `TREND_BREAK_CHECK_DAYS`
records and, on the latest bar, the short MA is below the long MA while
the long MA is below its value at `df.iloc[-20]`, classification clears
the stored label and stats (`$unset`) without evaluating any regression
window — whatever the window gates would have said. -/
theorem trend_break_clears_label (doc : StockDoc) (sMA lMA pMA : ℚ)
    (h1 : StrategyConfig.TREND_BREAK_CHECK_DAYS < doc.qfq.length)
    (e1 : rollMean StrategyConfig.TREND_MA_SHORT (closes doc.qfq)
      (doc.qfq.length - 1) = some sMA)
    (e2 : rollMean StrategyConfig.TREND_MA_LONG (closes doc.qfq)
      (doc.qfq.length - 1) = some lMA)
    (e3 : rollMean StrategyConfig.TREND_MA_LONG (closes doc.qfq)
      (doc.qfq.length - 20) = some pMA)
    (h2 : sMA < lMA) (h3 : lMA < pMA) :
    classifySingleStock doc = some none := by
  have hbreak : trendBreak doc.qfq = true := by
    unfold trendBreak
    rw [if_pos h1, e1, e2, e3]
    simp [h2, h3]
  unfold classifySingleStock
  by_cases hg : preGateFail doc = true
  · rw [if_pos hg]
  · have hq : ¬(doc.qfq = []) := by
      intro h
      rw [h] at h1
      simp [StrategyConfig.TREND_BREAK_CHECK_DAYS] at h1
    rw [if_neg hg, if_neg hq, if_pos hbreak]

/-- A flat-then-lower 271-row history: 250 closes at 4 followed by 21
closes at 1.  On the last bar the MA(50) is 137/50 = 2.74, the MA(250) is
937/250 ≈ 3.75 (dead cross), and the MA(250) twenty bars earlier is
994/250 ≈ 3.98 (long MA falling), so the circuit breaker trips. -/
def c3Row4 : QfqRow := { date := { year := 2020, month := 1, day := 1 }, close := 4, volume := 0 }

def c3Row1 : QfqRow := { date := { year := 2020, month := 1, day := 1 }, close := 1, volume := 0 }

def c3Doc : StockDoc :=
  { id := "0001", mcap := some 0, roe := some 0
    qfq := List.replicate 250 c3Row4 ++ List.replicate 21 c3Row1 }

lemma c3Doc_closes : closes c3Doc.qfq =
    List.replicate 250 (4 : ℚ) ++ List.replicate 21 (1 : ℚ) := by
  show List.map QfqRow.close
    (List.replicate 250 c3Row4 ++ List.replicate 21 c3Row1) = _
  rw [List.map_append, List.map_replicate, List.map_replicate]
  rfl

lemma c3Doc_len : c3Doc.qfq.length = 271 := by
  show (List.replicate 250 c3Row4 ++ List.replicate 21 c3Row1).length = 271
  rw [List.length_append, List.length_replicate, List.length_replicate]

/-- Witness for the C3 theorem on the concrete 271-row history. -/
theorem trend_break_clears_label_witness :
    StrategyConfig.TREND_BREAK_CHECK_DAYS < c3Doc.qfq.length ∧
    classifySingleStock c3Doc = some none := by
  have h1 : StrategyConfig.TREND_BREAK_CHECK_DAYS < c3Doc.qfq.length := by
    rw [c3Doc_len]
    norm_num [StrategyConfig.TREND_BREAK_CHECK_DAYS]
  have e1 : rollMean StrategyConfig.TREND_MA_SHORT (closes c3Doc.qfq)
      (c3Doc.qfq.length - 1) = some (137/50) := by
    rw [c3Doc_closes, c3Doc_len]
    unfold rollMean StrategyConfig.TREND_MA_SHORT
    rw [if_neg (by norm_num)]
    rw [List.take_of_length_le
      (by simp only [List.length_append, List.length_replicate]; norm_num)]
    rw [show (271 : ℕ) - 1 + 1 - 50 = 221 from rfl]
    rw [List.drop_append_eq_append_drop, List.drop_replicate, List.drop_replicate]
    norm_num [List.sum_append, List.sum_replicate, List.length_replicate,
      nsmul_eq_mul]
  have e2 : rollMean StrategyConfig.TREND_MA_LONG (closes c3Doc.qfq)
      (c3Doc.qfq.length - 1) = some (937/250) := by
    rw [c3Doc_closes, c3Doc_len]
    unfold rollMean StrategyConfig.TREND_MA_LONG
    rw [if_neg (by norm_num)]
    rw [List.take_of_length_le
      (by simp only [List.length_append, List.length_replicate]; norm_num)]
    rw [show (271 : ℕ) - 1 + 1 - 250 = 21 from rfl]
    rw [List.drop_append_eq_append_drop, List.drop_replicate, List.drop_replicate]
    norm_num [List.sum_append, List.sum_replicate, List.length_replicate,
      nsmul_eq_mul]
  have e3 : rollMean StrategyConfig.TREND_MA_LONG (closes c3Doc.qfq)
      (c3Doc.qfq.length - 20) = some (994/250) := by
    rw [c3Doc_closes, c3Doc_len]
    unfold rollMean StrategyConfig.TREND_MA_LONG
    rw [if_neg (by norm_num)]
    rw [show (271 : ℕ) - 20 + 1 = 252 from rfl, show (252 : ℕ) - 250 = 2 from rfl]
    rw [List.take_append_eq_append_take, List.take_replicate, List.take_replicate]
    rw [List.drop_append_eq_append_drop, List.drop_replicate, List.drop_replicate]
    norm_num [List.sum_append, List.sum_replicate, List.length_replicate,
      nsmul_eq_mul]
  exact ⟨h1, trend_break_clears_label c3Doc (137/50) (937/250) (994/250)
    h1 e1 e2 e3 (by norm_num) (by norm_num)⟩

lemma find?_desc_years {p : ℕ → Bool} {z : ℕ}
    (h : [5, 4, 3, 2, 1].find? p = some z) :
    p z = true ∧ ∀ y' ∈ [5, 4, 3, 2, 1], z < y' → p y' = false := by
  have hmem : ∀ y', y' ∈ [5, 4, 3, 2, 1] →
      y' = 5 ∨ y' = 4 ∨ y' = 3 ∨ y' = 2 ∨ y' = 1 := by
    intro y' hy'
    simpa using hy'
  by_cases h5 : p 5 = true
  · rw [List.find?_cons_of_pos _ h5] at h
    obtain rfl : z = 5 := (Option.some.inj h).symm
    refine ⟨h5, fun y' hy' hlt => ?_⟩
    rcases hmem y' hy' with rfl | rfl | rfl | rfl | rfl <;> omega
  · rw [List.find?_cons_of_neg _ h5] at h
    by_cases h4 : p 4 = true
    · rw [List.find?_cons_of_pos _ h4] at h
      obtain rfl : z = 4 := (Option.some.inj h).symm
      refine ⟨h4, fun y' hy' hlt => ?_⟩
      rcases hmem y' hy' with rfl | rfl | rfl | rfl | rfl <;>
        first
          | exact Bool.not_eq_true _ |>.mp h5
          | omega
    · rw [List.find?_cons_of_neg _ h4] at h
      by_cases h3 : p 3 = true
      · rw [List.find?_cons_of_pos _ h3] at h
        obtain rfl : z = 3 := (Option.some.inj h).symm
        refine ⟨h3, fun y' hy' hlt => ?_⟩
        rcases hmem y' hy' with rfl | rfl | rfl | rfl | rfl <;>
          first
            | exact Bool.not_eq_true _ |>.mp h5
            | exact Bool.not_eq_true _ |>.mp h4
            | omega
      · rw [List.find?_cons_of_neg _ h3] at h
        by_cases h2 : p 2 = true
        · rw [List.find?_cons_of_pos _ h2] at h
          obtain rfl : z = 2 := (Option.some.inj h).symm
          refine ⟨h2, fun y' hy' hlt => ?_⟩
          rcases hmem y' hy' with rfl | rfl | rfl | rfl | rfl <;>
            first
              | exact Bool.not_eq_true _ |>.mp h5
              | exact Bool.not_eq_true _ |>.mp h4
              | exact Bool.not_eq_true _ |>.mp h3
              | omega
        · rw [List.find?_cons_of_neg _ h2] at h
          by_cases h1 : p 1 = true
          · rw [List.find?_cons_of_pos _ h1] at h
            obtain rfl : z = 1 := (Option.some.inj h).symm
            refine ⟨h1, fun y' hy' hlt => ?_⟩
            rcases hmem y' hy' with rfl | rfl | rfl | rfl | rfl <;>
              first
                | exact Bool.not_eq_true _ |>.mp h5
                | exact Bool.not_eq_true _ |>.mp h4
                | exact Bool.not_eq_true _ |>.mp h3
                | exact Bool.not_eq_true _ |>.mp h2
                | omega
          · rw [List.find?_cons_of_neg _ h1, List.find?_nil] at h
            cases h

/-- Claim C2: for a stock that passes the fundamental pre-gates and the
trend-break check, the reported window length — when a label is set — is
a year whose gates all pass while every longer year in {5,4,3,2,1} fails
its gates: the loop tries 5,4,3,2,1 in order and stops at the first
success, so a shorter qualifying window is never reported when a longer
one also qualifies. -/
theorem longest_qualifying_window_wins (doc : StockDoc)
    (hg : preGateFail doc = false)
    (hq : doc.qfq ≠ [])
    (hb : trendBreak doc.qfq = false) :
    ∀ y : ℕ, classifiedYear doc = some y →
      windowPass doc.qfq y ∧
        ∀ y' ∈ [5, 4, 3, 2, 1], y < y' → ¬ windowPass doc.qfq y' := by
  intro y hy
  have hcl : classifySingleStock doc =
      some (([5, 4, 3, 2, 1].find? fun z => decide (windowPass doc.qfq z)).map
        fun z => mkVerdict doc.qfq z) := by
    unfold classifySingleStock
    rw [if_neg (by simp [hg]), if_neg hq, if_neg (by simp [hb])]
  unfold classifiedYear at hy
  rw [hcl] at hy
  cases hfind : [5, 4, 3, 2, 1].find? fun z => decide (windowPass doc.qfq z) with
  | none =>
    rw [hfind] at hy
    simp at hy
  | some z =>
    rw [hfind] at hy
    simp only [Option.map_some'] at hy
    have hz : (mkVerdict doc.qfq z).period_years = z := rfl
    have hzy : z = y := by
      have := Option.some.inj hy
      rw [← this, hz]
    subst hzy
    obtain ⟨hpz, hfail⟩ := find?_desc_years hfind
    refine ⟨of_decide_eq_true hpz, fun y' hy' hlt => ?_⟩
    intro hpass
    have := hfail y' hy' hlt
    rw [decide_eq_true hpass] at this
    cases this

/-- A tiny document that passes the pre-gates with a one-row history, so
the breaker is vacuous; instantiates the C2 theorem. -/
def c2Doc : StockDoc :=
  { id := "0002", mcap := some 10000000000, roe := some 1
    qfq := [{ date := { year := 2024, month := 1, day := 2 }, close := 1, volume := 1 }] }

/-- Witness for the C2 theorem at a concrete document. -/
theorem longest_qualifying_window_wins_witness :
    preGateFail c2Doc = false ∧ trendBreak c2Doc.qfq = false ∧
    (∀ y : ℕ, classifiedYear c2Doc = some y →
      windowPass c2Doc.qfq y ∧
        ∀ y' ∈ [5, 4, 3, 2, 1], y < y' → ¬ windowPass c2Doc.qfq y') := by
  have hg : preGateFail c2Doc = false := by
    show (decide ((10000000000 : ℚ) < StrategyConfig.MIN_MARKET_CAP) ||
      decide ((1 : ℚ) ≤ 0)) = false
    rw [decide_eq_false (by norm_num [StrategyConfig.MIN_MARKET_CAP]),
      decide_eq_false (by norm_num)]
    rfl
  have hq : c2Doc.qfq ≠ [] := by
    simp [c2Doc]
  have hb : trendBreak c2Doc.qfq = false := by
    unfold trendBreak
    rw [if_neg (by norm_num [c2Doc, StrategyConfig.TREND_BREAK_CHECK_DAYS])]
  exact ⟨hg, hb, longest_qualifying_window_wins c2Doc hg hq hb⟩

lemma sum_map_affine (a b : ℝ) (xs : List ℝ) :
    (xs.map fun x => a + b * x).sum = a * xs.length + b * xs.sum := by
  induction xs with
  | nil => simp
  | cons x t ih =>
    simp only [List.map_cons, List.sum_cons, List.length_cons, ih]
    push_cast
    ring

lemma listMean_affine (a b : ℝ) (xs : List ℝ) (h : xs ≠ []) :
    listMean (xs.map fun x => a + b * x) = a + b * listMean xs := by
  unfold listMean
  rw [sum_map_affine, List.length_map]
  have hn : (xs.length : ℝ) ≠ 0 := by
    have hpos := List.length_pos.2 h
    exact_mod_cast Nat.pos_iff_ne_zero.mp hpos
  field_simp

lemma centered_sum (a b m : ℝ) (l : List ℝ) :
    ((l.zip (l.map fun x => a + b * x)).map
      fun p => (p.1 - m) * (p.2 - (a + b * m))).sum =
      b * (l.map fun x => (x - m) ^ 2).sum := by
  induction l with
  | nil => simp
  | cons x t ih =>
    simp only [List.map_cons, List.zip_cons_cons, List.sum_cons, ih]
    ring

lemma sXY_affine (a b : ℝ) (xs : List ℝ) (h : xs ≠ []) :
    sXY xs (xs.map fun x => a + b * x) = b * sXX xs := by
  unfold sXY sXX
  rw [listMean_affine a b xs h]
  exact centered_sum a b (listMean xs) xs

lemma sXX_affine (a b : ℝ) (xs : List ℝ) (h : xs ≠ []) :
    sXX (xs.map fun x => a + b * x) = b ^ 2 * sXX xs := by
  unfold sXX
  rw [listMean_affine a b xs h, List.map_map]
  have hfun : ((fun y => (y - (a + b * listMean xs)) ^ 2) ∘
      fun x => a + b * x) = fun x => b ^ 2 * (x - listMean xs) ^ 2 := by
    funext x
    simp only [Function.comp]
    ring
  rw [hfun, List.sum_map_mul_left]

/-- Claim C7: for a noise-free exponential price series
`close = C0 · exp(r · x)` over the regressor `x` (calendar days since the
window start divided by 365.25), the OLS fit of `ln close` against `x`
has slope exactly `r` and `r²` exactly 1, so the reported annualized
return is exactly `(e^r − 1) × 100`. -/
theorem exp_series_regression_exact (xs : List ℝ) (C0 r : ℝ)
    (hC0 : 0 < C0) (hr : r ≠ 0) (hxx : sXX xs ≠ 0) :
    linregressSlope xs ((xs.map fun x => C0 * Real.exp (r * x)).map Real.log) = r ∧
    linregressR2 xs ((xs.map fun x => C0 * Real.exp (r * x)).map Real.log) = 1 ∧
    annualizedReturnPct (linregressSlope xs
      ((xs.map fun x => C0 * Real.exp (r * x)).map Real.log)) =
      (Real.exp r - 1) * 100 := by
  have hne : xs ≠ [] := by
    intro h
    rw [h] at hxx
    simp [sXX, listMean] at hxx
  have hlog : (xs.map fun x => C0 * Real.exp (r * x)).map Real.log =
      xs.map fun x => Real.log C0 + r * x := by
    rw [List.map_map]
    refine List.map_congr_left fun x _ => ?_
    show Real.log (C0 * Real.exp (r * x)) = _
    rw [Real.log_mul (ne_of_gt hC0) (Real.exp_ne_zero _), Real.log_exp]
  have hslope : linregressSlope xs
      ((xs.map fun x => C0 * Real.exp (r * x)).map Real.log) = r := by
    rw [hlog]
    unfold linregressSlope
    rw [sXY_affine (Real.log C0) r xs hne, mul_div_assoc, div_self hxx, mul_one]
  refine ⟨hslope, ?_, by rw [hslope]; rfl⟩
  rw [hlog]
  unfold linregressR2
  rw [sXY_affine (Real.log C0) r xs hne, sXX_affine (Real.log C0) r xs hne]
  have hnum : (r * sXX xs) ^ 2 = sXX xs * (r ^ 2 * sXX xs) := by ring
  rw [hnum]
  exact div_self (by
    exact mul_ne_zero hxx (mul_ne_zero (pow_ne_zero 2 hr) hxx))

/-- Witness for the C7 theorem at the concrete regressor list `[0, 1]`
with `C0 = 1` and `r = 1`. -/
theorem exp_series_regression_exact_witness :
    sXX [(0 : ℝ), 1] ≠ 0 ∧
    linregressSlope [(0 : ℝ), 1]
      (([(0 : ℝ), 1].map fun x => 1 * Real.exp (1 * x)).map Real.log) = 1 := by
  have hxx : sXX [(0 : ℝ), 1] ≠ 0 := by
    norm_num [sXX, listMean]
  exact ⟨hxx,
    (exp_series_regression_exact [0, 1] 1 1 (by norm_num) (by norm_num) hxx).1⟩

/-- Claim C10: the trend-analysis batch leaves the stored label and
trend stats of every stock whose code starts with `"8"` unchanged: such
documents are skipped before any gate is evaluated, and every processed
document writes only to its own (non-`"8"`) code. -/
theorem analyze_trend_skips_8_codes (docs : List StockDoc) (st : Store)
    (code : String) (hc : codeStartsWith8 code = true) :
    analyze_trend docs st code = st code := by
  induction docs generalizing st with
  | nil => rfl
  | cons d t ih =>
    unfold analyze_trend
    rw [List.foldl_cons]
    have hstep : analyzeTrendStep st d code = st code := by
      unfold analyzeTrendStep
      by_cases h8 : codeStartsWith8 d.id = true
      · rw [if_pos h8]
      · rw [if_neg h8]
        unfold applyClassify
        have hne : code ≠ d.id := by
          intro he
          rw [he] at hc
          exact h8 hc
        cases hcs : classifySingleStock d with
        | none => rfl
        | some o =>
          cases o with
          | none => simp [hcs, hne]
          | some v => simp [hcs, hne]
    have hrest := ih (analyzeTrendStep st d)
    unfold analyze_trend at hrest
    rw [hrest, hstep]

/-- A document whose code starts with `"8"`; instantiates the C10
theorem. -/
def c10Doc : StockDoc := { id := "800", mcap := none, roe := none, qfq := [] }

/-- Witness for the C10 theorem at a concrete one-document batch. -/
theorem analyze_trend_skips_8_codes_witness :
    codeStartsWith8 "800" = true ∧
    analyze_trend [c10Doc] (fun _ => none) "800" =
      (fun _ => none : Store) "800" := by
  have hc : codeStartsWith8 "800" = true := rfl
  exact ⟨hc, analyze_trend_skips_8_codes [c10Doc] (fun _ => none) "800" hc⟩
